import Mathlib

/-!
Verification development for the BLS data synchronization engine.

The definitions below are a shallow embedding of the Python sources
`part1_data_sourcing/bls_data_sync.py` (class `BLSDataSyncer`, the CLI
variant) and `part4_infrastructure/lambda_functions/data_processor.py`
(class `EnhancedBLSDataSyncer`, the Lambda variant).

Modelling conventions:
- HTTP fetches are modelled by a function `Web : String → Option Page`;
  `none` stands for any fetch or parse error (the `except` branches).
- The S3 object store is modelled by its observable interface:
  an `existsIn`/`getEtag` view for the CLI variant and a `head_object`
  result for the Lambda variant; a successful upload records the local
  fingerprint as the stored token (S3 single-part ETag = MD5 digest).
- Wall-clock time is modelled by a tick counter threaded through the
  traversal; each directory fetch and each file download advances it by
  one tick, and `check_execution_time` compares it against a budget.
- Concurrent subdirectory exploration is linearized: children run in
  submission order, which realizes one legal schedule of the thread
  pool.  The visited-set race of the source is modelled separately by
  an explicit two-worker interleaving semantics.
-/

/-
Character-list models of the Python `str` methods used by the sources.
Lean's built-in `String.trim`, `toLower`, `startsWith`, … work on UTF-8
byte positions and do not reduce inside the kernel, so the same
operations are defined here over `String.toList`; on the ASCII data of
this program they agree with both the built-ins and the Python methods.
-/

/-- Python `pat in s` on character lists: `pat` occurs contiguously in `l`. -/
def hasSubstring (pat l : List Char) : Bool :=
  l.tails.any (fun t => pat.isPrefixOf t)

/-- Python `s.startswith(pre)`. -/
def pyStartsWith (s pre : String) : Bool :=
  pre.toList.isPrefixOf s.toList

/-- Python `s.endswith(suf)`. -/
def pyEndsWith (s suf : String) : Bool :=
  suf.toList.reverse.isPrefixOf s.toList.reverse

/-- Python `s.lower()` (ASCII case folding). -/
def pyLower (s : String) : String :=
  String.mk (s.toList.map Char.toLower)

/-- Python `s.strip()`: remove leading and trailing whitespace. -/
def pyStrip (s : String) : String :=
  String.mk (((s.toList.dropWhile Char.isWhitespace).reverse.dropWhile
    Char.isWhitespace).reverse)

/-- Python `c in s` for a single character. -/
def pyContainsChar (s : String) (c : Char) : Bool :=
  s.toList.contains c

/-- Python `s.replace(a, b)` for single-character patterns. -/
def pyReplaceChar (s : String) (a b : Char) : String :=
  String.mk (s.toList.map (fun c => if c = a then b else c))

/-- Python `s.rstrip('/')`: drop all trailing `/` characters. -/
def rstripSlash (s : String) : String :=
  String.mk ((s.toList.reverse.dropWhile (fun c => c = '/')).reverse)

/-- Python `s.strip('"')`: drop all leading and trailing `"` characters. -/
def stripQuotes (s : String) : String :=
  String.mk (((s.toList.dropWhile (fun c => c = '"')).reverse.dropWhile
    (fun c => c = '"')).reverse)

/-- Python `s.split('/')[-1]`: the last `/`-separated segment, i.e. the
characters after the last `/` (the whole string when there is none). -/
def lastSegment (s : String) : String :=
  String.mk ((s.toList.reverse.takeWhile (fun c => c ≠ '/')).reverse)

/-- Everything of `s` up to and including the last `/` (empty when there
is no `/`); used to resolve a relative reference against a base URL. -/
def dropLastSegment (s : String) : String :=
  String.mk ((s.toList.reverse.dropWhile (fun c => c ≠ '/')).reverse)

/-- Split a character list at the first occurrence of `pat`, returning
the parts before and after it. -/
def splitAtSub (pat : List Char) : List Char → Option (List Char × List Char)
  | [] => if pat.isEmpty then some ([], []) else none
  | c :: rest =>
    if pat.isPrefixOf (c :: rest) then some ([], (c :: rest).drop pat.length)
    else
      match splitAtSub pat rest with
      | some (pre, post) => some (c :: pre, post)
      | none => none

/-- The `scheme://host` part of an absolute URL (the
`base.split('://')` two-element case; anything else is returned as is). -/
def hostRoot (base : String) : String :=
  match splitAtSub "://".toList base.toList with
  | some (scheme, rest) =>
    if (splitAtSub "://".toList rest).isSome then base
    else String.mk (scheme ++ "://".toList ++ rest.takeWhile (fun c => c ≠ '/'))
  | none => base

/-- Model of Python `urllib.parse.urljoin` restricted to the href shapes
produced by directory listings: an absolute `http(s)` href replaces the
base, a root-relative href is resolved against the host, and any other
href is resolved against the base with its last segment dropped.
Dot-segment normalization is not modelled. -/
def urljoin (base href : String) : String :=
  if pyStartsWith href "http://" || pyStartsWith href "https://" then href
  else if pyStartsWith href "/" then hostRoot base ++ href
  else dropLastSegment base ++ href

/-- Python `os.path.join(a, b)` on POSIX for the shapes used here, with
the callers' `if relative_path else href` guard folded in. -/
def pathJoin (a b : String) : String :=
  if pyStartsWith b "/" then b
  else if a = "" then b
  else a ++ "/" ++ b

namespace BLSDataSyncer

/-- `valid_extensions` of `BLSDataSyncer.is_valid_file`. -/
def valid_extensions : List String :=
  [".txt", ".csv", ".data", ".xlsx", ".xls", ".json", ".xml", ".tsv"]

/-- Skip list of `BLSDataSyncer.is_valid_file` / `is_valid_directory`
(the source literally lists `'../'` twice). -/
def skip_hrefs : List String := ["../", "../", "/", "./", "."]

/-- `BLSDataSyncer.is_valid_file` from `bls_data_sync.py`. -/
def is_valid_file (href : String) : Bool :=
  if skip_hrefs.contains href then false
  else valid_extensions.any (fun ext => pyEndsWith (pyLower href) ext)

/-- `BLSDataSyncer.is_valid_directory` from `bls_data_sync.py`. -/
def is_valid_directory (base_url href : String) : Bool :=
  if skip_hrefs.contains href then false
  else if (pyStartsWith href "http://" || pyStartsWith href "https://")
      && !pyStartsWith href base_url then false
  else
    pyEndsWith href "/"
    || (!pyContainsChar (lastSegment href) '.' && href ≠ "")
    || ["data", "series", "time"].contains (lastSegment href)

end BLSDataSyncer

namespace EnhancedBLSDataSyncer

/-- `valid_extensions` of `EnhancedBLSDataSyncer.is_valid_file`. -/
def valid_extensions : List String :=
  [".txt", ".csv", ".data", ".xlsx", ".xls", ".json", ".xml", ".tsv", ".series", ".notes"]

/-- Skip list of `EnhancedBLSDataSyncer.is_valid_file` / `is_valid_directory`. -/
def skip_hrefs : List String := ["../", "../", "/", "./", ".", ""]

/-- `EnhancedBLSDataSyncer.is_valid_file` from `data_processor.py`;
`pattern in href_lower` is substring containment. -/
def is_valid_file (base_url href : String) : Bool :=
  if skip_hrefs.contains href then false
  else if (pyStartsWith href "http://" || pyStartsWith href "https://")
      && !pyStartsWith href base_url then false
  else
    valid_extensions.any (fun ext => pyEndsWith (pyLower href) ext)
    || ["pr.data", "pr.series", "pr.notes"].any
        (fun p => hasSubstring p.toList (pyLower href).toList)

/-- `EnhancedBLSDataSyncer.is_valid_directory` from `data_processor.py`. -/
def is_valid_directory (base_url href : String) : Bool :=
  if skip_hrefs.contains href then false
  else if (pyStartsWith href "http://" || pyStartsWith href "https://")
      && !pyStartsWith href base_url then false
  else
    pyEndsWith href "/"
    || ((rstripSlash href).toList.length = 1 && (rstripSlash href).toList.all Char.isAlpha)
    || ["data", "series", "time", "Current"].contains (rstripSlash href)

end EnhancedBLSDataSyncer

/-- Outcome of the link classifier: a raw href is treated as a data
file, as a subdirectory to explore, or ignored. -/
inductive LinkClass where
  | file
  | dir
  | skip
deriving DecidableEq, Repr

/-- The CLI link classifier as applied by
`BLSDataSyncer.discover_files_recursive`: empty hrefs are dropped by the
caller, then `is_valid_file` is tried before `is_valid_directory`. -/
def blsClassify (base_url href : String) : LinkClass :=
  if href = "" then .skip
  else if BLSDataSyncer.is_valid_file href then .file
  else if BLSDataSyncer.is_valid_directory base_url href then .dir
  else .skip

/-- The Lambda link classifier as applied by
`EnhancedBLSDataSyncer.discover_files_recursive`. -/
def lambdaClassify (base_url href : String) : LinkClass :=
  if href = "" then .skip
  else if EnhancedBLSDataSyncer.is_valid_file base_url href then .file
  else if EnhancedBLSDataSyncer.is_valid_directory base_url href then .dir
  else .skip

/-- A directory listing page: the stripped `href` attributes of its
anchor elements. -/
structure Page where
  hrefs : List String
deriving DecidableEq, Repr

/-- The remote site: maps a URL to its listing page, or `none` when the
fetch raises (`requests.RequestException`) or parsing fails. -/
def Web : Type := String → Option Page

/-- A discovered file record (`file_info` dict of
`discover_files_recursive`; the CLI-only `size: None` entry is omitted). -/
structure FileInfo where
  name : String
  original_name : String
  url : String
  relative_path : String
  depth : Nat
deriving DecidableEq, Repr

/-- Mutable traversal state: the tick clock (wall time), the
`processed_urls` visited set and the `discovered_directories` set (the
latter is kept by the Lambda variant only and is write-only ghost state
for the CLI variant). -/
structure St where
  clock : Nat
  visited : List String
  dirs : List String
deriving DecidableEq, Repr

/-- Static configuration of one discovery run: recursion bound, the two
link predicates, and the execution-time budget in ticks (`none` for the
CLI variant, which has no execution-time governor). -/
structure Engine where
  maxDepth : Nat
  validFile : String → Bool
  validDir : String → Bool
  budget : Option Nat

/-- `check_execution_time` of `EnhancedBLSDataSyncer`: true while the
elapsed ticks are below the budget; always true without a governor. -/
def checkTime (e : Engine) (st : St) : Bool :=
  match e.budget with
  | none => true
  | some b => st.clock < b

/-- One iteration of the link-scanning loop of
`discover_files_recursive`: strip the href, drop empty ones, resolve
the full URL, then append either a file record or a pending
subdirectory `(full_url, new_relative_path)`. -/
def scanStep (e : Engine) (url rp : String) (depth : Nat) (visited : List String)
    (acc : List FileInfo × List (String × String)) (rawHref : String) :
    List FileInfo × List (String × String) :=
  let href := pyStrip rawHref
  if href = "" then acc
  else
    let full_url := urljoin url href
    if e.validFile href then
      (acc.1 ++ [{ name := pyReplaceChar (pathJoin rp href) '\\' '/',
                   original_name := href,
                   url := full_url,
                   relative_path := rp,
                   depth := depth }], acc.2)
    else if e.validDir href && !visited.contains full_url then
      (acc.1, acc.2 ++ [(full_url, pathJoin rp (rstripSlash href))])
    else acc

/-- The full link-scanning loop over a fetched page. -/
def scanLinks (e : Engine) (url rp : String) (depth : Nat) (visited : List String)
    (hrefs : List String) : List FileInfo × List (String × String) :=
  hrefs.foldl (scanStep e url rp depth visited) ([], [])

/-- The child-collection loop (`as_completed` over submitted futures),
linearized: before awaiting each child the Lambda variant re-checks the
execution budget and breaks out of the loop, keeping the files gathered
so far; a child's own failure has already been reduced to an empty
result inside `rec`. -/
def exploreSubdirs (e : Engine)
    (rec : String → Nat → String → St → List FileInfo × St) :
    List (String × String) → Nat → List FileInfo → St → List FileInfo × St
  | [], _, acc, st => (acc, st)
  | (u, p) :: rest, d, acc, st =>
    if checkTime e st then
      let r := rec u d p st
      exploreSubdirs e rec rest d (acc ++ r.1) r.2
    else (acc, st)

/-- `discover_files_recursive` of both syncer classes, fuel-indexed to
make the recursion structural (any `fuel > maxDepth - depth` is enough,
since every recursive call raises `depth` by one).

Steps, in source order: the depth / execution-budget guard, the
visited-set test, marking the URL visited (and explored, for the
Lambda variant), the fetch — `none` hits the `except` branch and
returns the empty result — the link scan, and the guarded concurrent
exploration of subdirectories. -/
def discover_files_recursive (e : Engine) (web : Web) :
    Nat → String → Nat → String → St → List FileInfo × St
  | 0, _, _, _, st => ([], st)
  | fuel + 1, url, depth, rp, st =>
    if depth > e.maxDepth || !checkTime e st then ([], st)
    else if st.visited.contains url then ([], st)
    else
      let st1 : St :=
        { clock := st.clock + 1, visited := url :: st.visited, dirs := url :: st.dirs }
      match web url with
      | none => ([], st1)
      | some page =>
        let scanned := scanLinks e url rp depth st1.visited page.hrefs
        if !scanned.2.isEmpty && depth < e.maxDepth && checkTime e st1 then
          exploreSubdirs e
            (fun u d p s => discover_files_recursive e web fuel u d p s)
            scanned.2 (depth + 1) scanned.1 st1
        else (scanned.1, st1)
termination_by structural fuel => fuel

/-- The BLS base URL shared by both variants. -/
def blsBase : String := "https://download.bls.gov/pub/time.series/"

/-- The CLI engine: `BLSDataSyncer` classifiers, no execution governor. -/
def blsEngine (maxDepth : Nat) : Engine :=
  { maxDepth := maxDepth,
    validFile := BLSDataSyncer.is_valid_file,
    validDir := BLSDataSyncer.is_valid_directory blsBase,
    budget := none }

/-- The Lambda engine: `EnhancedBLSDataSyncer` classifiers plus the
execution-time governor. -/
def lambdaEngine (maxDepth budget : Nat) : Engine :=
  { maxDepth := maxDepth,
    validFile := EnhancedBLSDataSyncer.is_valid_file blsBase,
    validDir := EnhancedBLSDataSyncer.is_valid_directory blsBase,
    budget := some budget }

/-- The CLI variant's view of the object store: the two `shared.utils`
queries it makes, `object_exists_in_s3` and `get_object_etag` (the
latter returns the ETag already stripped of surrounding quotes, or
`none` when the head request fails). -/
structure StoreView where
  existsIn : String → Bool
  getEtag : String → Option String

/-- `BLSDataSyncer.should_upload_file` from `bls_data_sync.py`:
if the key is absent, upload; otherwise upload exactly when a truthy
(non-empty) ETag was retrieved and differs, after stripping quotes,
from the local MD5 digest.  Note the `if s3_etag and …` truthiness
test: when `get_object_etag` returns `None` (or an empty string) the
function falls through to `return False` and skips the file. -/
def BLSDataSyncer.should_upload_file (store : StoreView) (name local_hash : String) : Bool :=
  let s3_key := "bls-data/" ++ name
  if !store.existsIn s3_key then true
  else
    match store.getEtag s3_key with
    | none => false
    | some e => e ≠ "" && stripQuotes e ≠ local_hash

/-- Result of the Lambda variant's `s3_client.head_object` call:
success with an ETag, a missing key, or any other error. -/
inductive HeadResult where
  | found (etag : String)
  | noSuchKey
  | errOther
deriving DecidableEq, Repr

/-- `EnhancedBLSDataSyncer.should_upload_file` from `data_processor.py`:
on a successful head, upload exactly when the stripped ETag differs
from the local MD5 digest; a missing key or any other error leads to
upload (`return True  # Upload on error to be safe`). -/
def EnhancedBLSDataSyncer.should_upload_file (head : String → HeadResult)
    (name local_hash : String) : Bool :=
  let s3_key := "bls-data/" ++ name
  match head s3_key with
  | .found etag => stripQuotes etag ≠ local_hash
  | .noSuchKey => true
  | .errOther => true

/-- A consistent store (one whose `exists` and ETag answers come from a
single key → token map) as seen through the CLI interface. -/
def storeViewOf (etags : String → Option String) : StoreView :=
  { existsIn := fun k => (etags k).isSome, getEtag := etags }

/-- The same consistent store as seen through the Lambda's
`head_object` interface. -/
def headOf (etags : String → Option String) : String → HeadResult :=
  fun k =>
    match etags k with
    | some e => .found e
    | none => .noSuchKey

/-- One discovered file as consumed by the sync loop (only the fields
the loop reads). -/
structure SyncFile where
  name : String
  url : String
deriving DecidableEq, Repr

/-- The per-file loop of `BLSDataSyncer.sync_files`, with network and
store effects made explicit: `remote` maps a source URL to the
downloaded bytes (`none` = the download failed after retries; the loop
counts it and continues), `fp` is the MD5 fingerprint of downloaded
bytes, and a performed upload records the fingerprint as the stored
ETag for the destination key (S3 single-part ETag = MD5).  Returns
`(successful_uploads, final store)`. -/
def BLSDataSyncer.sync_files {β : Type} (fp : β → String) (remote : String → Option β) :
    List SyncFile → (String → Option String) → Nat × (String → Option String)
  | [], etags => (0, etags)
  | f :: rest, etags =>
    match remote f.url with
    | none => BLSDataSyncer.sync_files fp remote rest etags
    | some content =>
      let local_hash := fp content
      if BLSDataSyncer.should_upload_file (storeViewOf etags) f.name local_hash then
        let etags' := fun k =>
          if k = "bls-data/" ++ f.name then some local_hash else etags k
        let r := BLSDataSyncer.sync_files fp remote rest etags'
        (r.1 + 1, r.2)
      else BLSDataSyncer.sync_files fp remote rest etags

/-- `max_files_for_lambda` of `EnhancedBLSDataSyncer.sync_files_recursive`. -/
def max_files_for_lambda : Nat := 50

/-- The per-file loop of `EnhancedBLSDataSyncer.sync_files_recursive`
over the (already truncated) file list: at the top of each iteration
the execution budget is checked and the loop breaks when it is
exhausted; then the file is counted as processed, downloaded (a failed
download raises, is caught, and the loop continues), and conditionally
uploaded.  Each iteration advances the tick clock.  Returns
`(successful_uploads, processed_files, final store)`. -/
def lambdaSyncLoop {β : Type} (fp : β → String) (remote : String → Option β) (b : Nat) :
    List FileInfo → Nat → (String → Option String) →
    Nat × Nat × (String → Option String)
  | [], _, etags => (0, 0, etags)
  | f :: rest, clock, etags =>
    if !(clock < b) then (0, 0, etags)
    else
      match remote f.url with
      | none =>
        let r := lambdaSyncLoop fp remote b rest (clock + 1) etags
        (r.1, r.2.1 + 1, r.2.2)
      | some content =>
        let local_hash := fp content
        if EnhancedBLSDataSyncer.should_upload_file (headOf etags) f.name local_hash then
          let etags' := fun k =>
            if k = "bls-data/" ++ f.name then some local_hash else etags k
          let r := lambdaSyncLoop fp remote b rest (clock + 1) etags'
          (r.1 + 1, r.2.1 + 1, r.2.2)
        else
          let r := lambdaSyncLoop fp remote b rest (clock + 1) etags
          (r.1, r.2.1 + 1, r.2.2)

/-- `EnhancedBLSDataSyncer.sync_files_recursive`, given the discovered
file list: only the first `max_files_for_lambda` files are processed
(`files[:max_files_for_lambda]`). -/
def EnhancedBLSDataSyncer.sync_files_recursive {β : Type} (fp : β → String)
    (remote : String → Option β) (b : Nat) (files : List FileInfo)
    (clock : Nat) (etags : String → Option String) :
    Nat × Nat × (String → Option String) :=
  lambdaSyncLoop fp remote b (files.take max_files_for_lambda) clock etags

/-
Interleaving model of the visited-set section of
`discover_files_recursive`, for two workers reaching the same URL.
The source executes, per worker:
    if url in self.processed_urls: return []      (membership test)
    with self.lock: self.processed_urls.add(url)  (locked insertion)
    ... self.session.get(url) ...                 (fetch)
The membership test is performed **outside** the lock, so it is a
separate atomic step from the insertion.  The spec's `tryMark`
contract instead demands one atomic test-and-insert step.
-/

/-- One worker: program counter (0 = before the membership test,
1 = before the locked insertion, 2 = before the fetch, 3 = done). -/
structure Worker where
  pc : Nat
deriving DecidableEq, Repr

/-- Shared state plus the two workers: whether the URL is in
`processed_urls`, and how many times it has been fetched. -/
structure RaceState where
  marked : Bool
  fetches : Nat
  w1 : Worker
  w2 : Worker
deriving DecidableEq, Repr

/-- One atomic step of a worker running the source code: test, then
(separately) insert, then fetch. -/
def stepRacy (w : Worker) (marked : Bool) (fetches : Nat) : Worker × Bool × Nat :=
  if w.pc = 0 then
    if marked then (⟨3⟩, marked, fetches) else (⟨1⟩, marked, fetches)
  else if w.pc = 1 then (⟨2⟩, true, fetches)
  else if w.pc = 2 then (⟨3⟩, marked, fetches + 1)
  else (w, marked, fetches)

/-- One atomic step of a worker running the spec's `tryMark` design:
the membership test and the insertion are a single atomic step. -/
def stepAtomic (w : Worker) (marked : Bool) (fetches : Nat) : Worker × Bool × Nat :=
  if w.pc = 0 then
    if marked then (⟨3⟩, marked, fetches) else (⟨2⟩, true, fetches)
  else if w.pc = 2 then (⟨3⟩, marked, fetches + 1)
  else (w, marked, fetches)

/-- Run a schedule (`true` = worker 1 moves, `false` = worker 2 moves)
under a given per-worker step function. -/
def runSched (step : Worker → Bool → Nat → Worker × Bool × Nat) :
    List Bool → RaceState → RaceState
  | [], s => s
  | b :: rest, s =>
    if b then
      let r := step s.w1 s.marked s.fetches
      runSched step rest { s with w1 := r.1, marked := r.2.1, fetches := r.2.2 }
    else
      let r := step s.w2 s.marked s.fetches
      runSched step rest { s with w2 := r.1, marked := r.2.1, fetches := r.2.2 }

/-- Both workers about to run the visited-set section on a URL that is
not yet marked. -/
def raceInit : RaceState := { marked := false, fetches := 0, w1 := ⟨0⟩, w2 := ⟨0⟩ }

/-- Number of workers past the insertion but not yet done fetching. -/
def fetchingCount (s : RaceState) : Nat :=
  (if s.w1.pc = 2 then 1 else 0) + (if s.w2.pc = 2 then 1 else 0)

/-- Safety invariant of the atomic `tryMark` design: at most one fetch
ever happens (performed or pending), and nothing happens before the
URL is marked. -/
def RaceInv (s : RaceState) : Prop :=
  s.fetches + fetchingCount s ≤ 1 ∧
  (s.marked = false → s.fetches = 0 ∧ fetchingCount s = 0)

/-- The spec's concrete test scenario: the root listing links to the
subdirectory `a/` and the file `overview.txt`, and the listing of `a/`
links to the file `a.txt`; every other URL is unreachable. -/
def webScenario : Web := fun u =>
  if u = blsBase then some ⟨["a/", "overview.txt"]⟩
  else if u = blsBase ++ "a/" then some ⟨["a.txt"]⟩
  else none

/-- A site whose root links to two sibling subdirectories; fetching
`bad/` fails (e.g. a 500 response), while `good/` lists `g.txt`. -/
def webSiblings : Web := fun u =>
  if u = blsBase then some ⟨["bad/", "good/"]⟩
  else if u = blsBase ++ "good/" then some ⟨["g.txt"]⟩
  else none

/-! ### Helper lemmas -/

theorem string_append_left_cancel {a b c : String} (h : a ++ b = a ++ c) : b = c := by
  have hd : a.data ++ b.data = a.data ++ c.data := by
    have := congrArg String.data h
    simpa [String.data_append] using this
  have h2 := List.append_cancel_left hd
  cases b; cases c; exact congrArg String.mk h2

/-- The CLI upload decision only looks at the store at the file's own
destination key. -/
theorem should_upload_eq_of_store_eq (e1 e2 : String → Option String) (name h : String)
    (heq : e1 ("bls-data/" ++ name) = e2 ("bls-data/" ++ name)) :
    BLSDataSyncer.should_upload_file (storeViewOf e1) name h
      = BLSDataSyncer.should_upload_file (storeViewOf e2) name h := by
  unfold BLSDataSyncer.should_upload_file storeViewOf
  simp only [heq]

/-- A key holding exactly the local fingerprint (a quote-free token) is
never re-uploaded. -/
theorem should_upload_false_of_some_local (etags : String → Option String) (name h : String)
    (hq : stripQuotes h = h) (hs : etags ("bls-data/" ++ name) = some h) :
    BLSDataSyncer.should_upload_file (storeViewOf etags) name h = false := by
  unfold BLSDataSyncer.should_upload_file storeViewOf
  simp [hs, hq]

/-- Running the CLI sync loop preserves "this key needs no upload", as
long as every file of the loop that shares the key writes the same
fingerprint. -/
theorem sync_files_preserve {β : Type} (fp : β → String) (remote : String → Option β)
    (hfp : ∀ c, stripQuotes (fp c) = fp c) :
    ∀ (l : List SyncFile) (etags : String → Option String) (name h : String),
      BLSDataSyncer.should_upload_file (storeViewOf etags) name h = false →
      (∀ g ∈ l, ∀ cg, remote g.url = some cg → g.name = name → fp cg = h) →
      BLSDataSyncer.should_upload_file
        (storeViewOf (BLSDataSyncer.sync_files fp remote l etags).2) name h = false := by
  intro l
  induction l with
  | nil => intro etags name h hstable hcomp; simpa [BLSDataSyncer.sync_files] using hstable
  | cons g rest ih =>
    intro etags name h hstable hcomp
    unfold BLSDataSyncer.sync_files
    rcases hr : remote g.url with _ | cg
    · exact ih etags name h hstable (fun g2 hg2 => hcomp g2 (List.mem_cons_of_mem g hg2))
    · simp only []
      split_ifs with hup
      · simp only []
        refine ih _ name h ?_ (fun g2 hg2 => hcomp g2 (List.mem_cons_of_mem g hg2))
        by_cases hk : ("bls-data/" ++ name : String) = "bls-data/" ++ g.name
        · have hn : g.name = name := (string_append_left_cancel hk).symm
          have hfc : fp cg = h := hcomp g (List.mem_cons_self g rest) cg hr hn
          refine should_upload_false_of_some_local _ name h (by rw [← hfc]; exact hfp cg) ?_
          simp [hk, hfc]
        · rw [should_upload_eq_of_store_eq _ etags name h (by simp [hk])]
          exact hstable
      · exact ih etags name h hstable (fun g2 hg2 => hcomp g2 (List.mem_cons_of_mem g hg2))

/-- After one CLI sync pass, every successfully downloaded file's key
needs no further upload — provided files sharing a logical name carry
the same fingerprint. -/
theorem sync_files_post {β : Type} (fp : β → String) (remote : String → Option β)
    (hfp : ∀ c, stripQuotes (fp c) = fp c) :
    ∀ (l : List SyncFile) (etags0 : String → Option String),
      (∀ f ∈ l, ∀ g ∈ l, ∀ cf cg, remote f.url = some cf → remote g.url = some cg →
        f.name = g.name → fp cf = fp cg) →
      ∀ f ∈ l, ∀ c, remote f.url = some c →
        BLSDataSyncer.should_upload_file
          (storeViewOf (BLSDataSyncer.sync_files fp remote l etags0).2) f.name (fp c) = false := by
  intro l
  induction l with
  | nil => intro etags0 hcomp f hf; simp at hf
  | cons g rest ih =>
    intro etags0 hcomp f hf c hc
    have hcomp2 : ∀ f2 ∈ rest, ∀ g2 ∈ rest, ∀ cf cg, remote f2.url = some cf →
        remote g2.url = some cg → f2.name = g2.name → fp cf = fp cg :=
      fun f2 hf2 g2 hg2 => hcomp f2 (List.mem_cons_of_mem g hf2) g2 (List.mem_cons_of_mem g hg2)
    unfold BLSDataSyncer.sync_files
    rcases List.mem_cons.mp hf with hfg | hftl
    · subst hfg
      rw [hc]
      simp only []
      split_ifs with hup
      · simp only []
        refine sync_files_preserve fp remote hfp rest _ f.name (fp c) ?_ ?_
        · refine should_upload_false_of_some_local _ f.name (fp c) (hfp c) ?_
          simp
        · intro g2 hg2 cg2 hr2 hn2
          exact hcomp g2 (List.mem_cons_of_mem f hg2) f (List.mem_cons_self f rest) cg2 c hr2 hc hn2
      · refine sync_files_preserve fp remote hfp rest _ f.name (fp c)
          (Bool.eq_false_iff.mpr (fun he => hup he)) ?_
        intro g2 hg2 cg2 hr2 hn2
        exact hcomp g2 (List.mem_cons_of_mem f hg2) f (List.mem_cons_self f rest) cg2 c hr2 hc hn2
    · rcases hr : remote g.url with _ | cg
      · exact ih etags0 hcomp2 f hftl c hc
      · simp only []
        split_ifs with hup
        · simp only []
          exact ih _ hcomp2 f hftl c hc
        · exact ih etags0 hcomp2 f hftl c hc

/-- A CLI sync pass in which no file needs an upload performs zero
uploads and leaves the store unchanged. -/
theorem sync_files_zero {β : Type} (fp : β → String) (remote : String → Option β) :
    ∀ (l : List SyncFile) (etags : String → Option String),
      (∀ f ∈ l, ∀ c, remote f.url = some c →
        BLSDataSyncer.should_upload_file (storeViewOf etags) f.name (fp c) = false) →
      BLSDataSyncer.sync_files fp remote l etags = (0, etags) := by
  intro l
  induction l with
  | nil => intro etags hst; rfl
  | cons g rest ih =>
    intro etags hst
    unfold BLSDataSyncer.sync_files
    rcases hr : remote g.url with _ | cg
    · exact ih etags (fun f hf => hst f (List.mem_cons_of_mem g hf))
    · have hskip := hst g (List.mem_cons_self g rest) cg hr
      simp only []
      rw [if_neg (by simp [hskip])]
      exact ih etags (fun f hf => hst f (List.mem_cons_of_mem g hf))

/-- Every file record added by the link-scanning loop carries the depth
of the call that scanned it. -/
theorem scanStep_foldl_mem (e : Engine) (url rp : String) (depth : Nat)
    (visited : List String) (hrefs : List String) :
    ∀ acc f, f ∈ (hrefs.foldl (scanStep e url rp depth visited) acc).1 →
      f ∈ acc.1 ∨ f.depth = depth := by
  induction hrefs with
  | nil => intro acc f hf; exact Or.inl hf
  | cons h t ih =>
    intro acc f hf
    rcases ih (scanStep e url rp depth visited acc h) f hf with hin | hdep
    · unfold scanStep at hin
      simp only [] at hin
      split_ifs at hin
      · exact Or.inl hin
      · rcases List.mem_append.mp hin with h1 | h1
        · exact Or.inl h1
        · simp at h1
          exact Or.inr (by rw [h1])
      · exact Or.inl hin
      · exact Or.inl hin
    · exact Or.inr hdep

/-- Files collected by the child loop either come from the accumulator
or from some child call. -/
theorem exploreSubdirs_mem (P : FileInfo → Prop) (e : Engine)
    (rec : String → Nat → String → St → List FileInfo × St)
    (hrec : ∀ u d p s g, g ∈ (rec u d p s).1 → P g) :
    ∀ (l : List (String × String)) (d : Nat) (acc : List FileInfo) (st : St) (f : FileInfo),
      (∀ g ∈ acc, P g) → f ∈ (exploreSubdirs e rec l d acc st).1 → P f := by
  intro l
  induction l with
  | nil => intro d acc st f hacc hf; simp [exploreSubdirs] at hf; exact hacc f hf
  | cons hd tl ih =>
    intro d acc st f hacc hf
    obtain ⟨u, p⟩ := hd
    unfold exploreSubdirs at hf
    split_ifs at hf
    · refine ih d _ _ f ?_ hf
      intro g hg
      rcases List.mem_append.mp hg with h1 | h2
      · exact hacc g h1
      · exact hrec u d p st g h2
    · exact hacc f hf

/-- No discovered file ever exceeds the configured maximum depth. -/
theorem discover_depth_le (e : Engine) (web : Web) :
    ∀ (fuel : Nat) (url : String) (depth : Nat) (rp : String) (st : St) (f : FileInfo),
      f ∈ (discover_files_recursive e web fuel url depth rp st).1 → f.depth ≤ e.maxDepth := by
  intro fuel
  induction fuel with
  | zero => intro url depth rp st f hf; simp [discover_files_recursive] at hf
  | succ fuel ih =>
    intro url depth rp st f hf
    unfold discover_files_recursive at hf
    split_ifs at hf with hg hv
    · simp at hf
    · simp at hf
    · have hdep : ¬ depth > e.maxDepth := by
        intro h
        simp [h] at hg
      rcases hw : web url with _ | page
      · rw [hw] at hf; simp at hf
      · rw [hw] at hf
        simp only at hf
        split_ifs at hf with hrec
        · refine exploreSubdirs_mem (fun g => g.depth ≤ e.maxDepth) e _
            (fun u d p s g hg2 => ih u d p s g hg2) _ _ _ _ _ ?_ hf
          intro g hg2
          rcases scanStep_foldl_mem e url rp depth _ page.hrefs ([], []) g hg2 with h0 | hd2
          · simp at h0
          · omega
        · rcases scanStep_foldl_mem e url rp depth _ page.hrefs ([], []) f hf with h0 | hd2
          · simp at h0
          · omega

/-- Under the spec's atomic `tryMark` design, the safety invariant is
preserved by every schedule. -/
theorem runSched_atomic_inv (sched : List Bool) :
    ∀ s : RaceState, RaceInv s → RaceInv (runSched stepAtomic sched s) := by
  induction sched with
  | nil => intro s h; simpa [runSched] using h
  | cons b rest ih =>
    intro s h
    obtain ⟨h1, h2⟩ := h
    unfold fetchingCount at h1 h2
    cases b
    · simp only [runSched, if_neg Bool.false_ne_true]
      apply ih
      unfold RaceInv fetchingCount stepAtomic
      split_ifs at h1 h2 ⊢ <;> simp_all
    · simp only [runSched, if_pos rfl]
      apply ih
      unfold RaceInv fetchingCount stepAtomic
      split_ifs at h1 h2 ⊢ <;> simp_all

/-- For any recursion bound `d ≥ 1` the run on the two-level test site
coincides with the run at bound 1 (the deeper bound is never hit). -/
theorem scenario_run_eq (d : Nat) (hd : 1 ≤ d) :
    discover_files_recursive (lambdaEngine d 100) webScenario 3 blsBase 0 "" ⟨0, [], []⟩
      = discover_files_recursive (lambdaEngine 1 100) webScenario 3 blsBase 0 "" ⟨0, [], []⟩ := by
  have h1 : ¬ (0 > d) := by omega
  have h2 : 0 < d := hd
  have h3 : ¬ (1 > d) := by omega
  simp +decide [discover_files_recursive, scanLinks, scanStep, exploreSubdirs, checkTime,
    lambdaEngine, webScenario, blsBase, urljoin, pathJoin, pyStrip, pyStartsWith, pyEndsWith,
    pyLower, pyContainsChar, pyReplaceChar, hasSubstring, rstripSlash, lastSegment,
    dropLastSegment, hostRoot, splitAtSub, EnhancedBLSDataSyncer.is_valid_file,
    EnhancedBLSDataSyncer.is_valid_directory, EnhancedBLSDataSyncer.valid_extensions,
    EnhancedBLSDataSyncer.skip_hrefs, h1, h2, h3]

/-- The Lambda per-file loop processes every file it is given, bounded
by the length of its (truncated) input and exactly that length when the
execution budget never runs out. -/
theorem lambdaSyncLoop_count {β : Type} (fp : β → String) (remote : String → Option β)
    (b : Nat) :
    ∀ (l : List FileInfo) (clock : Nat) (etags : String → Option String),
      (lambdaSyncLoop fp remote b l clock etags).2.1 ≤ l.length ∧
      (clock + l.length ≤ b → (lambdaSyncLoop fp remote b l clock etags).2.1 = l.length) := by
  intro l
  induction l with
  | nil => intro clock etags; simp [lambdaSyncLoop]
  | cons f rest ih =>
    intro clock etags
    unfold lambdaSyncLoop
    by_cases hc : clock < b
    · rw [if_neg (by simp [hc])]
      rcases hr : remote f.url with _ | content
      · refine ⟨by simpa using (ih (clock + 1) etags).1, ?_⟩
        intro hlen
        simp only [List.length_cons] at hlen
        have h2 := (ih (clock + 1) etags).2 (by omega)
        simp [h2]
      · simp only []
        by_cases hup : EnhancedBLSDataSyncer.should_upload_file (headOf etags) f.name
            (fp content) = true
        · rw [if_pos hup]
          refine ⟨by simpa using (ih (clock + 1) _).1, ?_⟩
          intro hlen
          simp only [List.length_cons] at hlen
          have h2 := (ih (clock + 1)
            (fun k => if k = "bls-data/" ++ f.name then some (fp content) else etags k)).2
            (by omega)
          simp [h2]
        · rw [if_neg hup]
          refine ⟨by simpa using (ih (clock + 1) etags).1, ?_⟩
          intro hlen
          simp only [List.length_cons] at hlen
          have h2 := (ih (clock + 1) etags).2 (by omega)
          simp [h2]
    · rw [if_pos (by simp [hc])]
      refine ⟨by simp, ?_⟩
      intro hlen
      simp only [List.length_cons] at hlen
      omega

/-! ### Claim theorems -/

/-- C1: the upload decision returns true iff the destination key does
not exist, or it exists and its stored fingerprint differs from the
local fingerprint; when the key exists and the fingerprints are equal
it returns false.  Stated for both variants (for the Lambda variant,
for the determinate head results `found`/`noSuchKey`); stored tokens
are assumed well-formed, i.e. non-empty and free of surrounding quotes,
as `get_object_etag` / `head_object` ETags are. -/
theorem upload_decision_iff :
    (∀ (sv : StoreView) (name h : String),
      (∀ e, sv.getEtag ("bls-data/" ++ name) = some e → e ≠ "" ∧ stripQuotes e = e) →
      (BLSDataSyncer.should_upload_file sv name h = true ↔
        sv.existsIn ("bls-data/" ++ name) = false ∨
        (sv.existsIn ("bls-data/" ++ name) = true ∧
          ∃ e, sv.getEtag ("bls-data/" ++ name) = some e ∧ e ≠ h))) ∧
    (∀ (hd : String → HeadResult) (name h e : String),
      hd ("bls-data/" ++ name) = HeadResult.found e → stripQuotes e = e →
      (EnhancedBLSDataSyncer.should_upload_file hd name h = true ↔ e ≠ h)) ∧
    (∀ (hd : String → HeadResult) (name h : String),
      hd ("bls-data/" ++ name) = HeadResult.noSuchKey →
      EnhancedBLSDataSyncer.should_upload_file hd name h = true) := by
  refine ⟨?_, ?_, ?_⟩
  · intro sv name h htok
    unfold BLSDataSyncer.should_upload_file
    rcases hex : sv.existsIn ("bls-data/" ++ name) with _ | _
    · simp [hex]
    · rcases hget : sv.getEtag ("bls-data/" ++ name) with _ | e
      · simp [hex, hget]
      · obtain ⟨hne, hq⟩ := htok e hget
        simp [hex, hget, hne, hq]
  · intro hd name h e hfound hq
    unfold EnhancedBLSDataSyncer.should_upload_file
    simp [hfound, hq]
  · intro hd name h hmiss
    unfold EnhancedBLSDataSyncer.should_upload_file
    simp [hmiss]

/-- C1 witness: the decision evaluated at concrete stores — a missing
key uploads (CLI), a differing fingerprint uploads and a missing key
uploads (Lambda). -/
theorem upload_decision_iff_witness :
    BLSDataSyncer.should_upload_file ⟨fun _ => false, fun _ => none⟩ "x" "h" = true ∧
    EnhancedBLSDataSyncer.should_upload_file (fun _ => HeadResult.found "e") "x" "h" = true ∧
    EnhancedBLSDataSyncer.should_upload_file (fun _ => HeadResult.noSuchKey) "x" "h" = true :=
  ⟨(upload_decision_iff.1 ⟨fun _ => false, fun _ => none⟩ "x" "h"
      (fun e he => by simp at he)).mpr (Or.inl rfl),
   (upload_decision_iff.2.1 (fun _ => HeadResult.found "e") "x" "h" "e" rfl
      (by decide)).mpr (by decide),
   upload_decision_iff.2.2 (fun _ => HeadResult.noSuchKey) "x" "h" rfl⟩

/-- C2 counterexample: in the CLI variant, when the key exists but the
fingerprint retrieval returns no token, the file is **skipped**, not
uploaded — contradicting "in every other case (including failure to
retrieve the stored fingerprint) the file is uploaded". -/
theorem skip_on_missing_fingerprint :
    BLSDataSyncer.should_upload_file ⟨fun _ => true, fun _ => none⟩ "x" "h" = false ∧
    StoreView.existsIn ⟨fun _ => true, fun _ => none⟩ ("bls-data/" ++ "x") = true ∧
    StoreView.getEtag ⟨fun _ => true, fun _ => none⟩ ("bls-data/" ++ "x") = none :=
  ⟨by decide, rfl, rfl⟩

/-- C2 amended: a file whose destination key exists is skipped exactly
when the retrieved fingerprint equals the local one **or (CLI variant
only) when no fingerprint could be retrieved**; the Lambda variant
uploads on any retrieval failure.  (Stored tokens assumed non-empty and
quote-free, as ETags are.) -/
theorem upload_skip_policy :
    (∀ (sv : StoreView) (name h : String),
      sv.existsIn ("bls-data/" ++ name) = true →
      (∀ e, sv.getEtag ("bls-data/" ++ name) = some e → e ≠ "" ∧ stripQuotes e = e) →
      (BLSDataSyncer.should_upload_file sv name h = false ↔
        sv.getEtag ("bls-data/" ++ name) = none ∨ sv.getEtag ("bls-data/" ++ name) = some h)) ∧
    (∀ (hd : String → HeadResult) (name h : String),
      (∀ e, hd ("bls-data/" ++ name) = HeadResult.found e → stripQuotes e = e) →
      (EnhancedBLSDataSyncer.should_upload_file hd name h = false ↔
        hd ("bls-data/" ++ name) = HeadResult.found h)) := by
  constructor
  · intro sv name h hex htok
    unfold BLSDataSyncer.should_upload_file
    rcases hget : sv.getEtag ("bls-data/" ++ name) with _ | e
    · simp [hex, hget]
    · obtain ⟨hne, hq⟩ := htok e hget
      simp [hex, hget, hne, hq]
  · intro hd name h htok
    unfold EnhancedBLSDataSyncer.should_upload_file
    rcases hh : hd ("bls-data/" ++ name) with e | _ | _
    · have hq := htok e hh
      simp [hh, hq]
    · simp [hh]
    · simp [hh]

/-- C2 amended witness: an equal fingerprint is skipped under both
variants. -/
theorem upload_skip_policy_witness :
    BLSDataSyncer.should_upload_file ⟨fun _ => true, fun _ => some "h"⟩ "x" "h" = false ∧
    EnhancedBLSDataSyncer.should_upload_file (fun _ => HeadResult.found "h") "x" "h" = false :=
  ⟨(upload_skip_policy.1 ⟨fun _ => true, fun _ => some "h"⟩ "x" "h" rfl
      (fun e he => by
        have h2 : e = "h" := by simpa using he.symm
        subst h2
        exact ⟨by decide, by decide⟩)).mpr (Or.inr rfl),
   (upload_skip_policy.2 (fun _ => HeadResult.found "h") "x" "h"
      (fun e he => by
        have h2 : e = "h" := by simpa using he.symm
        subst h2
        decide)).mpr rfl⟩

/-- C3 counterexample: with two discovered files aliasing the same
logical name `x` to two URLs with different contents, the second run of
the CLI sync engine performs 2 uploads, not 0 — each pass flips the
stored fingerprint of `bls-data/x` between the two contents' digests. -/
theorem sync_reupload_on_aliased_names :
    (BLSDataSyncer.sync_files (fun c : String => c)
        (fun u => if u = "u1" then some "A" else if u = "u2" then some "B" else none)
        [⟨"x", "u1"⟩, ⟨"x", "u2"⟩]
        (BLSDataSyncer.sync_files (fun c : String => c)
          (fun u => if u = "u1" then some "A" else if u = "u2" then some "B" else none)
          [⟨"x", "u1"⟩, ⟨"x", "u2"⟩] (fun _ => none)).2).1 = 2 ∧
    ¬ (BLSDataSyncer.sync_files (fun c : String => c)
        (fun u => if u = "u1" then some "A" else if u = "u2" then some "B" else none)
        [⟨"x", "u1"⟩, ⟨"x", "u2"⟩]
        (BLSDataSyncer.sync_files (fun c : String => c)
          (fun u => if u = "u1" then some "A" else if u = "u2" then some "B" else none)
          [⟨"x", "u1"⟩, ⟨"x", "u2"⟩] (fun _ => none)).2).1 = 0 :=
  ⟨by decide, by decide⟩

/-- C3 amended: sync is idempotent — a second CLI sync pass over the
same file list, with the remote contents unchanged and the store
holding what the first pass wrote, performs zero uploads — provided
any two discovered files sharing a logical name have the same
fingerprint (in particular whenever logical names are distinct), and
fingerprints are quote-free tokens (MD5 hex digests are). -/
theorem sync_idempotent : ∀ (β : Type) (fp : β → String) (remote : String → Option β)
    (files : List SyncFile) (etags0 : String → Option String),
    (∀ c, stripQuotes (fp c) = fp c) →
    (∀ f ∈ files, ∀ g ∈ files, ∀ cf cg, remote f.url = some cf → remote g.url = some cg →
      f.name = g.name → fp cf = fp cg) →
    (BLSDataSyncer.sync_files fp remote files
        (BLSDataSyncer.sync_files fp remote files etags0).2).1 = 0 := by
  intro β fp remote files etags0 hfp hcomp
  rw [sync_files_zero fp remote files _ (sync_files_post fp remote hfp files etags0 hcomp)]

/-- C3 witness: a one-file run, synced twice from an empty store,
performs zero uploads the second time. -/
theorem sync_idempotent_witness :
    (BLSDataSyncer.sync_files (fun _ : Unit => "ab")
        (fun u => if u = "u" then some () else none) [⟨"x", "u"⟩]
        (BLSDataSyncer.sync_files (fun _ : Unit => "ab")
          (fun u => if u = "u" then some () else none) [⟨"x", "u"⟩] (fun _ => none)).2).1 = 0 :=
  sync_idempotent Unit _ _ _ _ (fun _ => by decide) (fun _ _ _ _ _ _ _ _ _ => rfl)

/-- C4: depth bound — a discovery call invoked at `depth > maxDepth`
returns the empty result (for any variant, fuel, site and state), and
every file in any aggregated traversal result has `depth ≤ maxDepth`. -/
theorem depth_bound :
    (∀ (e : Engine) (web : Web) (fuel : Nat) (url : String) (depth : Nat) (rp : String)
        (st : St), depth > e.maxDepth →
      discover_files_recursive e web fuel url depth rp st = ([], st)) ∧
    (∀ (e : Engine) (web : Web) (fuel : Nat) (url : String) (depth : Nat) (rp : String)
        (st : St), ∀ f ∈ (discover_files_recursive e web fuel url depth rp st).1,
      f.depth ≤ e.maxDepth) := by
  constructor
  · intro e web fuel url depth rp st hd
    cases fuel with
    | zero => simp [discover_files_recursive]
    | succ fuel => simp [discover_files_recursive, hd]
  · intro e web fuel url depth rp st f hf
    exact discover_depth_le e web fuel url depth rp st f hf

/-- C4 witness: a call at depth 1 with bound 0 returns nothing, and the
root file of the test site respects the bound. -/
theorem depth_bound_witness :
    discover_files_recursive (blsEngine 0) (fun _ => none) 1 "u" 1 "" ⟨0, [], []⟩
      = ([], ⟨0, [], []⟩) ∧
    ({ name := "overview.txt", original_name := "overview.txt",
       url := blsBase ++ "overview.txt", relative_path := "", depth := 0 } : FileInfo).depth
      ≤ (lambdaEngine 1 100).maxDepth :=
  ⟨depth_bound.1 (blsEngine 0) (fun _ => none) 1 "u" 1 "" ⟨0, [], []⟩ (by decide),
   depth_bound.2 (lambdaEngine 1 100) webScenario 3 blsBase 0 "" ⟨0, [], []⟩ _ (by decide)⟩

/-- C5: the source's visited-set discipline is **not** atomic — its
membership test runs outside the lock — so two workers that both pass
the test before either inserts each fetch the same URL (the schedule
test₁ test₂ add₁ add₂ fetch₁ fetch₂ yields 2 fetches), violating
"each URL fetched at most once / exactly one caller owns it".  Under
the spec's atomic `tryMark` step, every schedule fetches at most
once. -/
theorem visited_set_race :
    (runSched stepRacy [true, false, true, false, true, false] raceInit).fetches = 2 ∧
    ∀ sched : List Bool, (runSched stepAtomic sched raceInit).fetches ≤ 1 := by
  constructor
  · decide
  · intro sched
    have h := runSched_atomic_inv sched raceInit
      (by constructor <;> simp [raceInit, fetchingCount])
    have := h.1
    omega

/-- C6: budget truncation — a discovery call entered with the
execution budget exhausted returns the empty result as a normal value
(no new dispatch), and the child-await loop, re-checking the budget
before each await, stops and returns the files gathered so far. -/
theorem budget_truncation :
    (∀ (e : Engine) (web : Web) (fuel : Nat) (url : String) (depth : Nat) (rp : String)
        (st : St) (b : Nat), e.budget = some b → ¬ st.clock < b →
      discover_files_recursive e web fuel url depth rp st = ([], st)) ∧
    (∀ (e : Engine) (rec : String → Nat → String → St → List FileInfo × St)
        (l : List (String × String)) (d : Nat) (acc : List FileInfo) (st : St),
      checkTime e st = false → exploreSubdirs e rec l d acc st = (acc, st)) := by
  constructor
  · intro e web fuel url depth rp st b hb hc
    have hck : checkTime e st = false := by simp [checkTime, hb, hc]
    cases fuel with
    | zero => simp [discover_files_recursive]
    | succ fuel => simp [discover_files_recursive, hck]
  · intro e rec l d acc st hc
    cases l with
    | nil => simp [exploreSubdirs]
    | cons p tl => obtain ⟨u, q⟩ := p; simp [exploreSubdirs, hc]

/-- C6 witness: with a zero budget the entry check and the await check
both truncate immediately. -/
theorem budget_truncation_witness :
    discover_files_recursive (lambdaEngine 5 0) (fun _ => none) 2 "u" 0 "" ⟨0, [], []⟩
      = ([], ⟨0, [], []⟩) ∧
    exploreSubdirs (lambdaEngine 5 0) (fun _ _ _ s => ([], s)) [("u", "p")] 1 [] ⟨0, [], []⟩
      = ([], ⟨0, [], []⟩) :=
  ⟨budget_truncation.1 (lambdaEngine 5 0) (fun _ => none) 2 "u" 0 "" ⟨0, [], []⟩ 0 rfl
      (by decide),
   budget_truncation.2 (lambdaEngine 5 0) (fun _ _ _ s => ([], s)) [("u", "p")] 1 [] ⟨0, [], []⟩
      (by decide)⟩

/-- C7: partial-failure isolation — a call whose directory fetch fails
yields only the empty result for that subtree, returned normally (the
`except` branch), while on the two-sibling test site the failure of
`bad/` leaves the sibling `good/`'s file in the aggregated result. -/
theorem failure_isolation :
    (∀ (e : Engine) (web : Web) (fuel : Nat) (url : String) (depth : Nat) (rp : String)
        (st : St), web url = none → ¬ depth > e.maxDepth → checkTime e st = true →
      st.visited.contains url = false →
      discover_files_recursive e web (fuel + 1) url depth rp st
        = ([], ⟨st.clock + 1, url :: st.visited, url :: st.dirs⟩)) ∧
    ((discover_files_recursive (lambdaEngine 3 100) webSiblings 3 blsBase 0 ""
        ⟨0, [], []⟩).1.map FileInfo.name = ["good/g.txt"]) := by
  constructor
  · intro e web fuel url depth rp st hw hd hc hv
    have hv2 : url ∉ st.visited := by simpa using hv
    simp [discover_files_recursive, hw, hd, hc, hv2]
  · decide

/-- C7 witness: the failing subdirectory call of the two-sibling site
itself returns the empty result normally. -/
theorem failure_isolation_witness :
    discover_files_recursive (lambdaEngine 3 100) webSiblings 2 (blsBase ++ "bad/") 1 "bad"
        ⟨1, [blsBase], [blsBase]⟩
      = ([], ⟨2, (blsBase ++ "bad/") :: [blsBase], (blsBase ++ "bad/") :: [blsBase]⟩) :=
  failure_isolation.1 (lambdaEngine 3 100) webSiblings 1 (blsBase ++ "bad/") 1 "bad"
    ⟨1, [blsBase], [blsBase]⟩ (by decide) (by decide) (by decide) (by decide)

/-- C8 counterexample: the CLI `is_valid_file` performs no root-prefix
check, so an absolute URL outside the configured root with a
recognized data extension is classified as a **file**, not skipped. -/
theorem external_file_classified :
    blsClassify blsBase "https://evil.example/x.txt" = LinkClass.file ∧
    blsClassify blsBase "https://evil.example/x.txt" ≠ LinkClass.skip ∧
    pyStartsWith "https://evil.example/x.txt" "https://" = true ∧
    pyStartsWith "https://evil.example/x.txt" blsBase = false :=
  ⟨by decide, by decide, by decide, by decide⟩

/-- C8 amended: both classifiers skip the empty href and the pure
parent/self references `../`, `./`, `/`; an absolute URL outside the
root prefix is skipped by the Lambda classifier and rejected by the
CLI **directory** check — but the CLI file check does not exclude it
(see the counterexample). -/
theorem classifier_skip_rules :
    (∀ base : String,
      blsClassify base "" = LinkClass.skip ∧ blsClassify base "../" = LinkClass.skip ∧
      blsClassify base "./" = LinkClass.skip ∧ blsClassify base "/" = LinkClass.skip ∧
      lambdaClassify base "" = LinkClass.skip ∧ lambdaClassify base "../" = LinkClass.skip ∧
      lambdaClassify base "./" = LinkClass.skip ∧ lambdaClassify base "/" = LinkClass.skip) ∧
    (∀ base href : String,
      (pyStartsWith href "http://" || pyStartsWith href "https://") = true →
      pyStartsWith href base = false →
      lambdaClassify base href = LinkClass.skip) ∧
    (∀ base href : String,
      (pyStartsWith href "http://" || pyStartsWith href "https://") = true →
      pyStartsWith href base = false →
      BLSDataSyncer.is_valid_directory base href = false) := by
  refine ⟨?_, ?_, ?_⟩
  · intro base
    refine ⟨rfl, ?_, ?_, ?_, rfl, ?_, ?_, ?_⟩ <;>
      simp [blsClassify, lambdaClassify, BLSDataSyncer.is_valid_file,
        BLSDataSyncer.is_valid_directory, EnhancedBLSDataSyncer.is_valid_file,
        EnhancedBLSDataSyncer.is_valid_directory, BLSDataSyncer.skip_hrefs,
        EnhancedBLSDataSyncer.skip_hrefs]
  · intro base href hab hnb
    have hne : href ≠ "" := by
      intro he
      subst he
      simp [pyStartsWith] at hab
    unfold lambdaClassify EnhancedBLSDataSyncer.is_valid_file
      EnhancedBLSDataSyncer.is_valid_directory
    simp only [hne, if_false, hab, hnb]
    split_ifs <;> simp_all
  · intro base href hab hnb
    unfold BLSDataSyncer.is_valid_directory
    simp only [hab, hnb]
    split_ifs <;> simp_all

/-- C8 witness: an external absolute URL is skipped by the Lambda
classifier and rejected by the CLI directory check. -/
theorem classifier_skip_rules_witness :
    lambdaClassify blsBase "http://other.example/dir/" = LinkClass.skip ∧
    BLSDataSyncer.is_valid_directory blsBase "http://other.example/dir/" = false :=
  ⟨classifier_skip_rules.2.1 blsBase "http://other.example/dir/" (by decide) (by decide),
   classifier_skip_rules.2.2 blsBase "http://other.example/dir/" (by decide) (by decide)⟩

/-- C9: the spec's concrete scenario — with any `maxDepth ≥ 1`,
discovery on the test site returns exactly the files `overview.txt` and
`a/a.txt` with 2 directories explored; with `maxDepth = 0` it returns
exactly `overview.txt` with 1 directory explored. -/
theorem concrete_scenario : ∀ d : Nat, 1 ≤ d →
    ((discover_files_recursive (lambdaEngine d 100) webScenario 3 blsBase 0 ""
        ⟨0, [], []⟩).1.map FileInfo.name = ["overview.txt", "a/a.txt"] ∧
      (discover_files_recursive (lambdaEngine d 100) webScenario 3 blsBase 0 ""
        ⟨0, [], []⟩).2.dirs.length = 2) ∧
    ((discover_files_recursive (lambdaEngine 0 100) webScenario 3 blsBase 0 ""
        ⟨0, [], []⟩).1.map FileInfo.name = ["overview.txt"] ∧
      (discover_files_recursive (lambdaEngine 0 100) webScenario 3 blsBase 0 ""
        ⟨0, [], []⟩).2.dirs.length = 1) := by
  intro d hd
  refine ⟨⟨?_, ?_⟩, by decide, by decide⟩
  · rw [scenario_run_eq d hd]; decide
  · rw [scenario_run_eq d hd]; decide

/-- C9 witness: the scenario instantiated at `maxDepth = 1`. -/
theorem concrete_scenario_witness :
    (discover_files_recursive (lambdaEngine 1 100) webScenario 3 blsBase 0 ""
        ⟨0, [], []⟩).1.map FileInfo.name = ["overview.txt", "a/a.txt"] :=
  (concrete_scenario 1 (by decide)).1.1

/-- C10: the Lambda sync engine processes at most
`max_files_for_lambda = 50` files per run, and the second component of
its result triple is the number of files actually processed — bounded
by both 50 and the number discovered, and equal to
`min discovered 50` whenever the execution budget does not run out. -/
theorem lambda_file_cap : ∀ (β : Type) (fp : β → String) (remote : String → Option β)
    (b : Nat) (files : List FileInfo) (clock : Nat) (etags : String → Option String),
    (EnhancedBLSDataSyncer.sync_files_recursive fp remote b files clock etags).2.1
      ≤ max_files_for_lambda ∧
    (EnhancedBLSDataSyncer.sync_files_recursive fp remote b files clock etags).2.1
      ≤ files.length ∧
    (clock + max_files_for_lambda ≤ b →
      (EnhancedBLSDataSyncer.sync_files_recursive fp remote b files clock etags).2.1
        = min files.length max_files_for_lambda) := by
  intro β fp remote b files clock etags
  unfold EnhancedBLSDataSyncer.sync_files_recursive
  have h := lambdaSyncLoop_count fp remote b (files.take max_files_for_lambda) clock etags
  have hlt : (files.take max_files_for_lambda).length = min max_files_for_lambda files.length :=
    List.length_take max_files_for_lambda files
  refine ⟨by omega, by omega, ?_⟩
  intro hb
  have h2 := h.2 (by omega)
  omega

/-- C10 witness: a single discovered file yields one processed file. -/
theorem lambda_file_cap_witness :
    (EnhancedBLSDataSyncer.sync_files_recursive (fun _ : Unit => "h") (fun _ => some ()) 100
        [{ name := "x", original_name := "x", url := "u", relative_path := "", depth := 0 }]
        0 (fun _ => none)).2.1
      = min ([{ name := "x", original_name := "x", url := "u", relative_path := "",
                depth := 0 }] : List FileInfo).length max_files_for_lambda :=
  (lambda_file_cap Unit (fun _ => "h") (fun _ => some ()) 100
    [{ name := "x", original_name := "x", url := "u", relative_path := "", depth := 0 }]
    0 (fun _ => none)).2.2 (by decide)
